import Mathlib

/-!
Verification development for the `paradox` multi-target code-emission library.

The Lean definitions below are a shallow embedding of the Python source:

* `src/paradox/expressions.py`  — precedence enums, parenthesization helpers,
  the `PanExpr` expression tree and its per-target renderers;
* `src/paradox/typing.py`       — the `CrossType` type model, literal-set
  ordering and the `maybe`/`unflex` factories;
* `src/paradox/generate/statements.py` — the statement tree and its
  per-target writers (try/catch, class constructor synthesis, interfaces);
* `src/paradox/output/__init__.py` — the `FileWriter`/`Script` render driver.

Python exceptions are modelled with `Except PdxError`; the append-only file
handle is modelled by returning the list of emitted lines.
-/

namespace Paradox

/-! ### Precedence enums (expressions.py lines 51-68) -/

/-- The `PyPrecedence` from expressions.py: Literal=1, Dot=2, MultDiv=3, AddSub=4. -/
inductive PyPrecedence where
  | Literal
  | Dot
  | MultDiv
  | AddSub
deriving DecidableEq, Repr

/-- The numeric `.value` of a `PyPrecedence` member. -/
def PyPrecedence.value : PyPrecedence → Nat
  | .Literal => 1
  | .Dot => 2
  | .MultDiv => 3
  | .AddSub => 4

/-- The `TSPrecedence` from expressions.py: Literal=1, Dot=2, MultDiv=3, AddSub=4. -/
inductive TSPrecedence where
  | Literal
  | Dot
  | MultDiv
  | AddSub
deriving DecidableEq, Repr

/-- The numeric `.value` of a `TSPrecedence` member. -/
def TSPrecedence.value : TSPrecedence → Nat
  | .Literal => 1
  | .Dot => 2
  | .MultDiv => 3
  | .AddSub => 4

/-- The `PHPPrecedence` from expressions.py: Literal=1, Arrow=2, MultDiv=3. -/
inductive PHPPrecedence where
  | Literal
  | Arrow
  | MultDiv
deriving DecidableEq, Repr

/-- The numeric `.value` of a `PHPPrecedence` member. -/
def PHPPrecedence.value : PHPPrecedence → Nat
  | .Literal => 1
  | .Arrow => 2
  | .MultDiv => 3

/-- The `Union[PyPrecedence, TSPrecedence, PHPPrecedence]` argument type of
`_wrapdot` / `_wrapmult`; the Python code dispatches on `isinstance`. -/
inductive Precedence where
  | py (p : PyPrecedence)
  | ts (p : TSPrecedence)
  | php (p : PHPPrecedence)
deriving DecidableEq, Repr

/-- The `_wrapdot` (expressions.py lines 75-87): wrap `code` in parentheses when its
precedence value is `>=` the Dot (PHP: Arrow) value. -/
def wrapdot : String × Precedence → String
  | (code, .py prec) =>
      if PyPrecedence.Dot.value ≤ prec.value then "(" ++ code ++ ")" else code
  | (code, .ts prec) =>
      if TSPrecedence.Dot.value ≤ prec.value then "(" ++ code ++ ")" else code
  | (code, .php prec) =>
      if PHPPrecedence.Arrow.value ≤ prec.value then "(" ++ code ++ ")" else code

/-- The `_wrapmult` (expressions.py lines 90-102): wrap `code` in parentheses when
its precedence value is `>=` the MultDiv value. -/
def wrapmult : String × Precedence → String
  | (code, .py prec) =>
      if PyPrecedence.MultDiv.value ≤ prec.value then "(" ++ code ++ ")" else code
  | (code, .ts prec) =>
      if TSPrecedence.MultDiv.value ≤ prec.value then "(" ++ code ++ ")" else code
  | (code, .php prec) =>
      if PHPPrecedence.MultDiv.value ≤ prec.value then "(" ++ code ++ ")" else code

/-- The numeric rank of a precedence tag, uniformly over the three targets. -/
def Precedence.rank : Precedence → Nat
  | .py p => p.value
  | .ts p => p.value
  | .php p => p.value

/-- The dot-level threshold for each target: `Dot.value` for Python and
TypeScript, `Arrow.value` for PHP. -/
def Precedence.dotThreshold : Precedence → Nat
  | .py _ => PyPrecedence.Dot.value
  | .ts _ => TSPrecedence.Dot.value
  | .php _ => PHPPrecedence.Arrow.value

/-- The mult-level threshold for each target: `MultDiv.value`. -/
def Precedence.multThreshold : Precedence → Nat
  | .py _ => PyPrecedence.MultDiv.value
  | .ts _ => TSPrecedence.MultDiv.value
  | .php _ => PHPPrecedence.MultDiv.value

theorem paren_ne_self (code : String) : "(" ++ code ++ ")" ≠ code := by
  intro h
  have hlen := congrArg String.length h
  rw [String.length_append, String.length_append] at hlen
  have h1 : ("(" : String).length = 1 := rfl
  have h2 : (")" : String).length = 1 := rfl
  rw [h1, h2] at hlen
  omega

theorem ite_wrap_charn (c : Prop) [Decidable c] (code : String) :
    ((if c then "(" ++ code ++ ")" else code) = "(" ++ code ++ ")" ↔ c) ∧
    (¬ c → (if c then "(" ++ code ++ ")" else code) = code) := by
  by_cases h : c <;> simp [h]
  exact fun heq => paren_ne_self code heq.symm

/-- C1: `_wrapdot` wraps its argument in parentheses exactly when the child's
precedence rank is `≥` the Dot rank (Arrow for PHP), and `_wrapmult` wraps
exactly when the rank is `≥` the MultDiv rank; otherwise the code string is
returned unchanged (no parentheses added when the child binds at least as
tightly). -/
theorem wrap_parenthesization_policy (code : String) (p : Precedence) :
    (wrapdot (code, p) = "(" ++ code ++ ")" ↔ p.dotThreshold ≤ p.rank) ∧
    (¬ p.dotThreshold ≤ p.rank → wrapdot (code, p) = code) ∧
    (wrapmult (code, p) = "(" ++ code ++ ")" ↔ p.multThreshold ≤ p.rank) ∧
    (¬ p.multThreshold ≤ p.rank → wrapmult (code, p) = code) := by
  obtain (q | q | q) := p <;>
    simp only [wrapdot, wrapmult, Precedence.rank, Precedence.dotThreshold,
      Precedence.multThreshold] <;>
    exact ⟨(ite_wrap_charn _ code).1, (ite_wrap_charn _ code).2,
      (ite_wrap_charn _ code).1, (ite_wrap_charn _ code).2⟩

/-! ### Errors (interfaces.py) -/

/-- The exception kinds raised by the library (interfaces.py) together with the
built-in Python exceptions the source also uses (`assert`, bare `Exception`,
`NotImplementedError`). -/
inductive PdxError where
  | notSupported (msg : String)
  | notImplemented (msg : String)
  | implementationMissing (msg : String)
  | invalidLogic (msg : String)
  | typeMissing (msg : String)
  | assertFailed (msg : String)
  | exception (msg : String)
deriving DecidableEq, Repr

/-! ### The type model (typing.py) -/

/-- A non-boolean scalar stored in `CrossLiteral._other` (`Union[str, int]`). -/
inductive PyLit where
  | int (i : Int)
  | str (s : String)
deriving DecidableEq, Repr

/-- A literal variant value (`Union[str, int, bool]`). -/
inductive LitVal where
  | int (i : Int)
  | str (s : String)
  | bool (b : Bool)
deriving DecidableEq, Repr

def PyLit.toLitVal : PyLit → LitVal
  | .int i => .int i
  | .str s => .str s

/-- The `CrossType` hierarchy of typing.py as a closed sum.  `literal` stores
the `_booleans` set as two membership flags plus the `_other` set as a
duplicate-free list (Python set semantics; every consumer sorts it, so the
stored order is irrelevant).  `CrossSet`, `CrossMap`, `CrossCallable` and
`CrossCustomType` are not needed by any claim and are omitted. -/
inductive CrossType where
  | any
  | str
  | num
  | bool
  | null
  | omit
  | literal (hasTrue hasFalse : Bool) (other : List PyLit)
  | optional (inner : CrossType)
  | list (wrapped : CrossType)
  | dict (key val : CrossType)
  | union (inner : List CrossType)

/-- The `CrossLiteral.__init__` partition of the variants into the boolean
membership flags and the duplicate-free set of other values (insertion order
kept; every consumer sorts).  The constructor's `assert len(variants)` is a
construction-time check and is not part of the rendering behaviour. -/
def crossLiteral (variants : List LitVal) : CrossType :=
  CrossType.literal
    (variants.any fun v => v = .bool true)
    (variants.any fun v => v = .bool false)
    (variants.foldl
      (fun acc v =>
        match v with
        | .bool _ => acc
        | .int i => if PyLit.int i ∈ acc then acc else acc ++ [PyLit.int i]
        | .str s => if PyLit.str s ∈ acc then acc else acc ++ [PyLit.str s])
      [])

/-- CPython `repr()` for `str` values as used by the renderers: single quotes
unless the string contains `'` and no `"`; backslash, the quote character and
the common control characters are escaped.  (CPython additionally hex-escapes
other non-printable characters; strings in this development stay within the
modelled printable fragment.) -/
def pyReprStr (s : String) : String :=
  let useDouble := s.toList.contains '\'' && !(s.toList.contains '"')
  let q : Char := if useDouble then '"' else '\''
  let esc := String.join (s.toList.map fun c =>
    if c = '\\' then "\\\\"
    else if c = q then "\\" ++ q.toString
    else if c = '\n' then "\\n"
    else if c = '\r' then "\\r"
    else if c = '\t' then "\\t"
    else c.toString)
  q.toString ++ esc ++ q.toString

/-- CPython `repr()` on a literal variant value (`repr(True) = "True"` etc.),
used by `CrossLiteral.getPyType`. -/
def reprLit : LitVal → String
  | .bool true => "True"
  | .bool false => "False"
  | .int i => toString i
  | .str s => pyReprStr s

/-- The token emitted for one literal variant by `CrossLiteral.getTSType`
(lines 164-174): `true`/`false` for booleans, `repr` for ints and strs. -/
def tsLitTok : LitVal → String
  | .bool true => "true"
  | .bool false => "false"
  | .int i => toString i
  | .str s => pyReprStr s

/-- Lexicographic `≤` on character lists: CPython's `str` comparison is
code-point lexicographic, which this computes. -/
def charListLE : List Char → List Char → Bool
  | [], _ => true
  | _ :: _, [] => false
  | a :: as, b :: bs =>
      if a < b then true else if b < a then false else charListLE as bs

/-- CPython's `<=` on `str` values. -/
def strLE (a b : String) : Bool := charListLE a.toList b.toList

/-- The comparison behind `_literal_to_key` (typing.py lines 559-561): the
sort key is `(grouping, value)` with grouping 1 for ints and 2 for strs, so
every int orders before every str, ints by numeric order, strs by
lexicographic order. -/
def litKeyLE : PyLit → PyLit → Bool
  | .int a, .int b => decide (a ≤ b)
  | .int _, .str _ => true
  | .str _, .int _ => false
  | .str a, .str b => strLE a b

/-- Insert `x` into `l` before the first element that `x` compares `≤` to —
one step of the insertion sort modelling Python's `sorted`. -/
def insertLe {α : Type} (le : α → α → Bool) (x : α) : List α → List α
  | [] => [x]
  | y :: ys => if le x y then x :: y :: ys else y :: insertLe le x ys

/-- Insertion sort modelling Python's `sorted(...)`.  Python's sort is a
stable mergesort; on the duplicate-free key sets used here the sorted result
is unique, so any correct comparison sort coincides with it. -/
def isortLe {α : Type} (le : α → α → Bool) : List α → List α
  | [] => []
  | x :: xs => insertLe le x (isortLe le xs)

/-- The `_sorted_literals` (typing.py lines 549-563): `True` first when present,
then `False` when present, then the other values sorted by the
grouping-then-value key. -/
def sortedLiterals (hasTrue hasFalse : Bool) (other : List PyLit) : List LitVal :=
  (if hasTrue then [LitVal.bool true] else []) ++
    (if hasFalse then [LitVal.bool false] else []) ++
    (isortLe litKeyLE other).map PyLit.toLitVal

mutual

/-- The `CrossType.getPyType` per typing.py: the Python type string and the
needs-quoting flag. -/
def getPyType : CrossType → String × Bool
  | .any => ("Any", false)
  | .str => ("str", false)
  | .num => ("int", false)
  | .bool => ("bool", false)
  | .null => ("None", false)
  | .omit => ("builtins.ellipsis", true)
  | .literal bt bf other =>
      ("Literal[" ++ String.intercalate ", "
        ((sortedLiterals bt bf other).map reprLit) ++ "]", false)
  | .optional inner =>
      let (innertype, innerquote) := getPyType inner
      ("Optional[" ++ innertype ++ "]", innerquote)
  | .list wrapped =>
      let (innertype, innerquote) := getPyType wrapped
      ("List[" ++ innertype ++ "]", innerquote)
  | .dict key val =>
      let (keytype, keyquote) := getPyType key
      let (valtype, valquote) := getPyType val
      ("Dict[" ++ keytype ++ ", " ++ valtype ++ "]", keyquote || valquote)
  | .union inner =>
      let rs := getPyTypeList inner
      ("Union[" ++ String.intercalate ", " (rs.map Prod.fst) ++ "]",
        rs.any Prod.snd)

def getPyTypeList : List CrossType → List (String × Bool)
  | [] => []
  | t :: ts => getPyType t :: getPyTypeList ts

end

mutual

/-- The `CrossType.getTSType` per typing.py: the TypeScript type string and the
self-contained flag. -/
def getTSType : CrossType → String × Bool
  | .any => ("any", true)
  | .str => ("string", true)
  | .num => ("number", true)
  | .bool => ("boolean", true)
  | .null => ("null", false)
  | .omit => ("undefined", false)
  | .literal bt bf other =>
      (String.intercalate " | " ((sortedLiterals bt bf other).map tsLitTok), true)
  | .optional inner => ((getTSType inner).1 ++ " | null", false)
  | .list wrapped =>
      let (inner, listable) := getTSType wrapped
      (if listable then inner ++ "[]" else "Array<" ++ inner ++ ">", false)
  | .dict key val =>
      ("\x7b[k: " ++ (getTSType key).1 ++ "]: " ++ (getTSType val).1 ++ "\x7d",
        false)
  | .union inner =>
      (String.intercalate " | " ((getTSTypeList inner).map Prod.fst), false)

def getTSTypeList : List CrossType → List (String × Bool)
  | [] => []
  | t :: ts => getTSType t :: getTSTypeList ts

end

mutual

/-- The `CrossType.getPHPTypes` per typing.py: optional strict in-language type,
phpDocumentor type, self-contained flag.  `CrossOmit.getPHPTypes` raises
`NotSupportedError`, and `CrossLiteral.getPHPTypes` asserts a non-empty
subtype set, hence the `Except`. -/
def getPHPTypes : CrossType → Except PdxError (Option String × String × Bool)
  | .any => .ok (none, "mixed", true)
  | .str => .ok (some "string", "string", true)
  | .num => .ok (some "int", "int", true)
  | .bool => .ok (some "bool", "boolean", true)
  | .null => .ok (none, "null", true)
  | .omit => .error (.notSupported "CrossOmit is not supported by PHP")
  | .literal bt bf other =>
      let subtypes :=
        ((if bt || bf then ["bool"] else []) ++ other.map fun v =>
          match v with
          | .str _ => "string"
          | .int _ => "int")
      let subtypes2 := isortLe strLE
        (subtypes.foldl (fun acc s => if s ∈ acc then acc else acc ++ [s]) [])
      match subtypes2 with
      | [] => .error (.assertFailed "len(subtypes2)")
      | [t] => .ok (some t, t, true)
      | ts => .ok (some "mixed", String.intercalate "|" ts, false)
  | .optional inner => do
      let innertype := (← getPHPTypes inner).2.1
      .ok (none, "null|" ++ innertype, false)
  | .list wrapped => do
      let (_, innertype, canbearray) ← getPHPTypes wrapped
      .ok (some "array", if canbearray then innertype ++ "[]" else "mixed", false)
  | .dict _ val => do
      let (_, innertype, canbearray) ← getPHPTypes val
      .ok (some "array", if canbearray then innertype ++ "[]" else "mixed", false)
  | .union inner => do
      let docs ← getPHPTypesList inner
      .ok (none, String.intercalate "|" docs, false)

def getPHPTypesList : List CrossType → Except PdxError (List String)
  | [] => .ok []
  | t :: ts => do
      let r ← getPHPTypes t
      let rs ← getPHPTypesList ts
      .ok (r.2.1 :: rs)

end

/-- The `FlexiType = Union[CrossType, Type[str], Type[int], Type[bool]]`. -/
inductive FlexiType where
  | cross (t : CrossType)
  | pystr
  | pyint
  | pybool

/-- The `unflex` (typing.py lines 489-502); the `None` input case is the
`Option.none` argument. -/
def unflex : Option FlexiType → CrossType
  | none => .null
  | some .pystr => .str
  | some .pyint => .num
  | some .pybool => .bool
  | some (.cross t) => t

/-- The `CrossUnion.alsoWith` (typing.py lines 361-363). -/
def CrossType.alsoWith (inner : List CrossType) (other : List CrossType) :
    CrossType :=
  .union (inner ++ other)

/-- The `maybe` (typing.py lines 507-517): pass an `Optional` through unchanged,
append `Null` to a `Union`, wrap anything else in `Optional`. -/
def maybe (t : FlexiType) : CrossType :=
  match t with
  | .cross (.optional inner) => .optional inner
  | .cross (.union inner) => CrossType.alsoWith inner [.null]
  | _ => .optional (unflex (some t))

/-- True exactly when the `FlexiType` is a `CrossUnion`. -/
def FlexiType.isUnionFlex : FlexiType → Bool
  | .cross (.union _) => true
  | _ => false

/-! ### Sorting facts for the literal ordering -/

theorem insertLe_perm {α : Type} (le : α → α → Bool) (x : α) (l : List α) :
    (insertLe le x l).Perm (x :: l) := by
  induction l with
  | nil => simp [insertLe]
  | cons y ys ih =>
      simp only [insertLe]
      split
      · exact List.Perm.refl _
      · exact ((ih.cons y).trans (List.Perm.swap x y ys))

theorem isortLe_perm {α : Type} (le : α → α → Bool) (l : List α) :
    (isortLe le l).Perm l := by
  induction l with
  | nil => exact List.Perm.refl _
  | cons x xs ih =>
      exact (insertLe_perm le x (isortLe le xs)).trans (ih.cons x)

theorem pairwise_insertLe {α : Type} (le : α → α → Bool)
    (htot : ∀ a b, le a b = true ∨ le b a = true)
    (htrans : ∀ a b c, le a b = true → le b c = true → le a c = true)
    (x : α) (l : List α) (hl : l.Pairwise (le · · = true)) :
    (insertLe le x l).Pairwise (le · · = true) := by
  induction l with
  | nil => simp [insertLe]
  | cons y ys ih =>
      rw [List.pairwise_cons] at hl
      simp only [insertLe]
      split
      · rename_i hxy
        refine List.pairwise_cons.2 ⟨?_, List.pairwise_cons.2 hl⟩
        intro z hz
        rcases List.mem_cons.1 hz with rfl | hz
        · exact hxy
        · exact htrans x y z hxy (hl.1 z hz)
      · rename_i hxy
        have hyx : le y x = true := (htot x y).resolve_left hxy
        refine List.pairwise_cons.2 ⟨?_, ih hl.2⟩
        intro z hz
        have := (insertLe_perm le x ys).mem_iff.1 hz
        rcases List.mem_cons.1 this with rfl | hz'
        · exact hyx
        · exact hl.1 z hz'

theorem pairwise_isortLe {α : Type} (le : α → α → Bool)
    (htot : ∀ a b, le a b = true ∨ le b a = true)
    (htrans : ∀ a b c, le a b = true → le b c = true → le a c = true)
    (l : List α) : (isortLe le l).Pairwise (le · · = true) := by
  induction l with
  | nil => simp [isortLe]
  | cons x xs ih => exact pairwise_insertLe le htot htrans x _ ih

theorem charListLE_cons_iff (a b : Char) (as bs : List Char) :
    charListLE (a :: as) (b :: bs) = true ↔
      a < b ∨ (a = b ∧ charListLE as bs = true) := by
  simp only [charListLE]
  split
  · rename_i h
    simp [h]
  · split
    · rename_i hab hba
      refine ⟨fun h => absurd h (by simp), ?_⟩
      rintro (h | ⟨rfl, -⟩)
      · exact absurd h hab
      · exact absurd hba (lt_irrefl _)
    · rename_i hab hba
      have he : a = b := le_antisymm (not_lt.1 hba) (not_lt.1 hab)
      simp [he, lt_irrefl]

theorem charListLE_total (as bs : List Char) :
    charListLE as bs = true ∨ charListLE bs as = true := by
  induction as generalizing bs with
  | nil => left; rfl
  | cons a as ih =>
      cases bs with
      | nil => right; rfl
      | cons b bs =>
          rcases lt_trichotomy a b with h | h | h
          · left; exact (charListLE_cons_iff _ _ _ _).2 (Or.inl h)
          · rcases ih bs with h2 | h2
            · left; exact (charListLE_cons_iff _ _ _ _).2 (Or.inr ⟨h, h2⟩)
            · right; exact (charListLE_cons_iff _ _ _ _).2 (Or.inr ⟨h.symm, h2⟩)
          · right; exact (charListLE_cons_iff _ _ _ _).2 (Or.inl h)

theorem charListLE_trans (as bs cs : List Char) :
    charListLE as bs = true → charListLE bs cs = true →
      charListLE as cs = true := by
  induction as generalizing bs cs with
  | nil => intro _ _; rfl
  | cons a as ih =>
      cases bs with
      | nil => intro h; exact absurd h (by simp [charListLE])
      | cons b bs =>
          cases cs with
          | nil => intro _ h; exact absurd h (by simp [charListLE])
          | cons c cs =>
              intro h1 h2
              rcases (charListLE_cons_iff _ _ _ _).1 h1 with h1' | ⟨rfl, h1'⟩ <;>
                rcases (charListLE_cons_iff _ _ _ _).1 h2 with h2' | ⟨he2, h2'⟩
              · exact (charListLE_cons_iff _ _ _ _).2 (Or.inl (lt_trans h1' h2'))
              · exact (charListLE_cons_iff _ _ _ _).2 (Or.inl (he2 ▸ h1'))
              · exact (charListLE_cons_iff _ _ _ _).2 (Or.inl h2')
              · exact (charListLE_cons_iff _ _ _ _).2
                  (Or.inr ⟨he2, ih bs cs h1' h2'⟩)

theorem strLE_total (a b : String) : strLE a b = true ∨ strLE b a = true :=
  charListLE_total a.toList b.toList

theorem strLE_trans (a b c : String) :
    strLE a b = true → strLE b c = true → strLE a c = true :=
  charListLE_trans a.toList b.toList c.toList

theorem litKeyLE_total (a b : PyLit) :
    litKeyLE a b = true ∨ litKeyLE b a = true := by
  cases a with
  | int i =>
      cases b with
      | int j => simp only [litKeyLE, decide_eq_true_eq]; exact le_total i j
      | str s => left; rfl
  | str s =>
      cases b with
      | int j => right; rfl
      | str t => exact strLE_total s t

theorem litKeyLE_trans (a b c : PyLit) :
    litKeyLE a b = true → litKeyLE b c = true → litKeyLE a c = true := by
  cases a with
  | int i =>
      cases b with
      | int j =>
          cases c with
          | int k =>
              simp only [litKeyLE, decide_eq_true_eq]
              exact fun h1 h2 => le_trans h1 h2
          | str s => intro _ _; rfl
      | str s =>
          cases c with
          | int k => intro _ h2; exact absurd h2 (by simp [litKeyLE])
          | str t => intro _ _; rfl
  | str s =>
      cases b with
      | int j => intro h1; exact absurd h1 (by simp [litKeyLE])
      | str t =>
          cases c with
          | int k => intro _ h2; exact absurd h2 (by simp [litKeyLE])
          | str u => exact strLE_trans s t u

/-- C5 (amended): the Python and TypeScript renderings of a `Literal` type list
the value set in the fixed order produced by `_sorted_literals` — `True` first
when present, then `False`, then the remaining values sorted with every int
before every str, ints ascending and strs lexicographic (the `litKeyLE` order,
established here by the `Pairwise`/`Perm` conjuncts); repeated renderings are
equal because the renderers are functions of the stored data.  The claim's
example set renders as `Literal[True, False, 1, 2, 'a', 'b']` and
`true | false | 1 | 2 | 'a' | 'b'`.  (The PHP rendering does not list the
values at all — see the counterexample.) -/
theorem crossLiteral_rendering_order (bt bf : Bool) (other : List PyLit) :
    getPyType (.literal bt bf other) =
      ("Literal[" ++ String.intercalate ", "
        ((sortedLiterals bt bf other).map reprLit) ++ "]", false) ∧
    getTSType (.literal bt bf other) =
      (String.intercalate " | " ((sortedLiterals bt bf other).map tsLitTok),
        true) ∧
    sortedLiterals bt bf other =
      (if bt then [LitVal.bool true] else []) ++
        (if bf then [LitVal.bool false] else []) ++
        (isortLe litKeyLE other).map PyLit.toLitVal ∧
    (isortLe litKeyLE other).Perm other ∧
    (isortLe litKeyLE other).Pairwise (litKeyLE · · = true) ∧
    getPyType (crossLiteral
        [.int 2, .str "b", .bool false, .str "a", .int 1, .bool true]) =
      ("Literal[True, False, 1, 2, 'a', 'b']", false) ∧
    getTSType (crossLiteral
        [.int 2, .str "b", .bool false, .str "a", .int 1, .bool true]) =
      ("true | false | 1 | 2 | 'a' | 'b'", true) := by
  refine ⟨rfl, rfl, rfl, isortLe_perm _ _,
    pairwise_isortLe _ litKeyLE_total litKeyLE_trans _, ?_, ?_⟩ <;>
    simp [getPyType, getTSType, crossLiteral, sortedLiterals, isortLe, insertLe,
      litKeyLE, pyReprStr, reprLit, tsLitTok] <;> rfl

/-- C5 counterexample: the PHP rendering of a `Literal` type does not list the
value set — two different value sets render identically, and the rendering of
the claim's example set contains none of the values (not even the digit 2). -/
theorem crossLiteral_php_lists_no_values :
    getPHPTypes (crossLiteral [.int 1]) = .ok (some "int", "int", true) ∧
    getPHPTypes (crossLiteral [.int 2]) = .ok (some "int", "int", true) ∧
    getPHPTypes (crossLiteral
        [.int 2, .str "b", .bool false, .str "a", .int 1, .bool true]) =
      .ok (some "mixed", "bool|int|string", false) ∧
    "bool|int|string".toList.contains '2' = false := by
  refine ⟨?_, ?_, ?_, by decide⟩ <;>
    simp [getPHPTypes, crossLiteral, isortLe, insertLe]
  rfl

/-- C10 counterexample: `maybe` is not idempotent on a `CrossUnion` — the
second application appends a second `Null` alternative. -/
theorem maybe_not_idempotent_on_union :
    maybe (.cross (maybe (.cross (.union [.str])))) ≠
      maybe (.cross (.union [.str])) := by
  simp [maybe, CrossType.alsoWith]

/-- C10 (amended): `maybe` is idempotent on every type that is not a
`CrossUnion` (an `Optional` passes through unchanged and anything else becomes
an `Optional`, which the second application passes through); on a `CrossUnion`
each application appends exactly one `Null` alternative instead of wrapping in
`Optional`, so idempotence fails there. -/
theorem maybe_idempotent_unless_union (t : FlexiType)
    (h : t.isUnionFlex = false) :
    maybe (.cross (maybe t)) = maybe t ∧
    ∀ l, maybe (.cross (.union l)) = .union (l ++ [.null]) := by
  refine ⟨?_, fun l => rfl⟩
  cases t with
  | cross c => cases c <;> first | rfl | simp [FlexiType.isUnionFlex] at h
  | pystr => rfl
  | pyint => rfl
  | pybool => rfl

/-- Witness for C10: the amended idempotence theorem applied at the concrete
type `str`. -/
theorem maybe_idempotent_unless_union_witness :
    maybe (.cross (maybe .pystr)) = maybe .pystr ∧
    ∀ l, maybe (.cross (.union l)) = .union (l ++ [.null]) :=
  maybe_idempotent_unless_union .pystr rfl

/-! ### The expression model (expressions.py) -/

/-- The value stored in a `PanLiteral` (`Union[int, str, bool, None]`). -/
inductive PanVal where
  | int (i : Int)
  | str (s : String)
  | bool (b : Bool)
  | null
deriving DecidableEq, Repr

/-- CPython `repr()` on a `PanLiteral` value, used by `PanLiteral.getPyExpr`. -/
def pyReprVal : PanVal → String
  | .int i => toString i
  | .str s => pyReprStr s
  | .bool true => "True"
  | .bool false => "False"
  | .null => "None"

/-- The `_phpstr` (expressions.py lines 71-72): single-quote the value, escaping
backslashes and single quotes. -/
def phpstr (value : String) : String :=
  "'" ++ String.join (value.toList.map fun c =>
    if c = '\\' then "\\\\"
    else if c = '\'' then "\\'"
    else c.toString) ++ "'"

/-- The `"AND"`/`"OR"` operation tag of `PanAndOr`. -/
inductive AndOrOp where
  | AND
  | OR
deriving DecidableEq, Repr

/-- The `Literal["===", "<", ">"]` operation of `PanCompare`. -/
inductive CompareOp where
  | eq
  | lt
  | gt
deriving DecidableEq, Repr

/-- The literal operator token of a `CompareOp`. -/
def CompareOp.tok : CompareOp → String
  | .eq => "==="
  | .lt => "<"
  | .gt => ">"

/-- The `PanCompare._getComp` (expressions.py lines 943-952): the negated
equivalents are `===`→`!==`, `<`→`>=`, `>`→`<=`. -/
def getComp : CompareOp → Bool → String
  | op, false => op.tok
  | .eq, true => "!=="
  | .lt, true => ">="
  | .gt, true => "<="

/-- The `PanExpr` hierarchy of expressions.py as a closed sum, restricted to
the node kinds the claims need.  `prop` with `owner = none` is the
"self/this" case; `keyAccess` is `PanKeyAccess` (key is `Union[str, PanExpr]`,
optional fallback); `isNull` and `compare` carry the `_negated` flag. -/
inductive PanExpr where
  | lit (v : PanVal)
  | omit
  | var (name : String) (type : Option CrossType)
  | prop (name : String) (type : CrossType) (owner : Option PanExpr)
  | keyAccess (target : PanExpr) (key : String ⊕ PanExpr)
      (fallback : Option PanExpr)
  | andOr (op : AndOrOp) (args : List PanExpr)
  | not (arg : PanExpr)
  | isNull (target : PanExpr) (negated : Bool)
  | compare (op : CompareOp) (arg1 arg2 : PanExpr) (negated : Bool)

/-- The `PanExpr.getNegated`: only `PanIsNullExpr` and `PanCompare` implement it
(returning a copy with the `_negated` flag toggled); every other node raises
`NotImplementedError`, modelled as `none`. -/
def getNegated : PanExpr → Option PanExpr
  | .isNull t n => some (.isNull t (!n))
  | .compare op a b n => some (.compare op a b (!n))
  | _ => none

theorem getNegated_sizeOf (e n : PanExpr) (h : getNegated e = some n) :
    sizeOf n = sizeOf e := by
  cases e <;> simp [getNegated] at h <;> subst h <;> simp

/-- Shorthand for `_wrapdot` applied to a Python `(code, precedence)` pair. -/
def wrapdotPy (p : String × PyPrecedence) : String := wrapdot (p.1, .py p.2)

/-- Shorthand for `_wrapmult` applied to a Python `(code, precedence)` pair. -/
def wrapmultPy (p : String × PyPrecedence) : String := wrapmult (p.1, .py p.2)

/-- Shorthand for `_wrapdot` applied to a TypeScript pair. -/
def wrapdotTS (p : String × TSPrecedence) : String := wrapdot (p.1, .ts p.2)

/-- Shorthand for `_wrapmult` applied to a TypeScript pair. -/
def wrapmultTS (p : String × TSPrecedence) : String := wrapmult (p.1, .ts p.2)

/-- Shorthand for `_wrapdot` applied to a PHP pair. -/
def wrapdotPHP (p : String × PHPPrecedence) : String := wrapdot (p.1, .php p.2)

/-- Shorthand for `_wrapmult` applied to a PHP pair. -/
def wrapmultPHP (p : String × PHPPrecedence) : String := wrapmult (p.1, .php p.2)

@[simp]
theorem Except_bind_ok {ε α β : Type} (a : α) (f : α → Except ε β) :
    (Except.ok a >>= f) = f a := rfl

@[simp]
theorem Except_bind_error {ε α β : Type} (e : ε) (f : α → Except ε β) :
    ((Except.error e : Except ε α) >>= f) = Except.error e := rfl

@[simp]
theorem Except_pure_eq_ok {ε α : Type} (a : α) :
    (pure a : Except ε α) = Except.ok a := rfl

mutual

/-- The `getPyExpr` of each modelled `PanExpr` node, per expressions.py. -/
def getPyExpr : PanExpr → Except PdxError (String × PyPrecedence)
  | .lit v => .ok (pyReprVal v, .Literal)
  | .omit => .ok ("...", .MultDiv)
  | .var name _ => .ok (name, .Literal)
  | .prop name _ none => .ok ("self." ++ name, .Dot)
  | .prop name _ (some owner) => do
      let (ownerexpr, ownerprec) ← getPyExpr owner
      let ownerexpr := if PyPrecedence.Dot.value < ownerprec.value
        then "(" ++ ownerexpr ++ ")" else ownerexpr
      .ok (ownerexpr ++ "." ++ name, .Dot)
  | .keyAccess target key fallback => do
      let (targetstr, targetprec) ← getPyExpr target
      let targetstr := if PyPrecedence.Dot.value < targetprec.value
        then "(" ++ targetstr ++ ")" else targetstr
      let indexexpr ← match key with
        | .inr e => do .ok (← getPyExpr e).1
        | .inl s => .ok (pyReprStr s)
      match fallback with
      | some fb => do
          let fbstr ← getPyExpr fb
          .ok (targetstr ++ ".get(" ++ indexexpr ++ ", " ++ fbstr.1 ++ ")",
            .Dot)
      | none => .ok (targetstr ++ "[" ++ indexexpr ++ "]", .Dot)
  | .andOr _ [] => .ok ("bool(" ++ String.intercalate "" [] ++ ")", .Literal)
  | .andOr _ [a] => do .ok ("bool(" ++ (← getPyExpr a).1 ++ ")", .Literal)
  | .andOr op (a :: b :: rest) => do
      let each ← getPyExprList (a :: b :: rest)
      let each := each.map fun p => "(" ++ p.1 ++ ")"
      let join := match op with | .OR => " or " | .AND => " and "
      .ok ("bool(" ++ String.intercalate join each ++ ")", .Literal)
  | .not arg =>
      match h : getNegated arg with
      | some neg =>
          have : sizeOf neg = sizeOf arg := getNegated_sizeOf arg neg h
          getPyExpr neg
      | none => do
          let p ← getPyExpr arg
          .ok ("not " ++ wrapmultPy p, .MultDiv)
  | .isNull target negated => do
      let p ← getPyExpr target
      let comp := if negated then " is not None" else " is None"
      .ok (wrapdotPy p ++ comp, .AddSub)
  | .compare op arg1 arg2 negated => do
      let comp := if op = .eq then (if negated then "!=" else "==")
        else getComp op negated
      let a1 := wrapmultPy (← getPyExpr arg1)
      let a2 := wrapmultPy (← getPyExpr arg2)
      .ok (a1 ++ " " ++ comp ++ " " ++ a2, .MultDiv)
termination_by e => sizeOf e
decreasing_by all_goals (simp_wf <;> omega)

def getPyExprList : List PanExpr → Except PdxError (List (String × PyPrecedence))
  | [] => .ok []
  | e :: es => do
      let r ← getPyExpr e
      let rs ← getPyExprList es
      .ok (r :: rs)
termination_by l => sizeOf l
decreasing_by all_goals (simp_wf <;> omega)

end

mutual

/-- The `getTSExpr` of each modelled `PanExpr` node, per expressions.py.  Note
that `PanAndOr.getTSExpr` (line 822) renders each operand with `getPyExpr`
when there are two or more operands. -/
def getTSExpr : PanExpr → Except PdxError (String × TSPrecedence)
  | .lit v =>
      match v with
      | .null => .ok ("null", .Literal)
      | .bool true => .ok ("true", .Literal)
      | .bool false => .ok ("false", .Literal)
      | .int i => .ok (toString i, .Literal)
      | .str s => .ok (pyReprStr s, .Literal)
  | .omit => .ok ("undefined", .Literal)
  | .var name _ => .ok (name, .Literal)
  | .prop name _ none => .ok ("this." ++ name, .Dot)
  | .prop name _ (some owner) => do
      let (ownerexpr, ownerprec) ← getTSExpr owner
      let ownerexpr := if TSPrecedence.Dot.value < ownerprec.value
        then "(" ++ ownerexpr ++ ")" else ownerexpr
      .ok (ownerexpr ++ "." ++ name, .Dot)
  | .keyAccess target key fallback => do
      let (targetstr, targetprec) ← getTSExpr target
      let targetstr := if TSPrecedence.Dot.value < targetprec.value
        then "(" ++ targetstr ++ ")" else targetstr
      let indexexpr ← match key with
        | .inr e => do .ok (← getTSExpr e).1
        | .inl s => .ok (pyReprStr s)
      match fallback with
      | some fb => do
          let fbstr ← getTSExpr fb
          let accessstr := targetstr ++ "[" ++ indexexpr ++ "]"
          .ok (accessstr ++ " === undefined ? " ++ fbstr.1 ++ " : " ++
            accessstr, .Dot)
      | none => .ok (targetstr ++ "[" ++ indexexpr ++ "]", .Dot)
  | .andOr _ [] => .ok ("!!(" ++ String.intercalate "" [] ++ ")", .Literal)
  | .andOr _ [a] => do .ok ("!!(" ++ (← getTSExpr a).1 ++ ")", .AddSub)
  | .andOr op (a :: b :: rest) => do
      let each ← getPyExprList (a :: b :: rest)
      let each := each.map fun p => "(" ++ p.1 ++ ")"
      let join := match op with | .OR => " || " | .AND => " && "
      .ok ("!!(" ++ String.intercalate join each ++ ")", .Literal)
  | .not arg =>
      match h : getNegated arg with
      | some neg =>
          have : sizeOf neg = sizeOf arg := getNegated_sizeOf arg neg h
          getTSExpr neg
      | none => do
          let p ← getTSExpr arg
          .ok ("!" ++ wrapmultTS p, .MultDiv)
  | .isNull target negated => do
      let p ← getTSExpr target
      let comp := if negated then " !== null" else " === null"
      .ok (wrapdotTS p ++ comp, .AddSub)
  | .compare op arg1 arg2 negated => do
      let comp := getComp op negated
      let a1 := wrapmultTS (← getTSExpr arg1)
      let a2 := wrapmultTS (← getTSExpr arg2)
      .ok (a1 ++ " " ++ comp ++ " " ++ a2, .MultDiv)
termination_by e => sizeOf e
decreasing_by all_goals (simp_wf <;> omega)

end

mutual

/-- The `getPHPExpr` of each modelled `PanExpr` node, per expressions.py
(`keyAccess` follows `_PanItemAccess.getPHPExpr`, lines 445-464). -/
def getPHPExpr : PanExpr → Except PdxError (String × PHPPrecedence)
  | .lit v =>
      match v with
      | .null => .ok ("null", .Literal)
      | .bool true => .ok ("true", .Literal)
      | .bool false => .ok ("false", .Literal)
      | .int i => .ok (toString i, .Literal)
      | .str s => .ok (phpstr s, .Literal)
  | .omit => .error (.notSupported "PHP has no way to express omitted arguments")
  | .var name _ => .ok ("$" ++ name, .Literal)
  | .prop name _ none => .ok ("$this->" ++ name, .Arrow)
  | .prop name _ (some owner) => do
      let (ownerexpr, ownerprec) ← getPHPExpr owner
      let ownerexpr := if PHPPrecedence.Arrow.value < ownerprec.value
        then "(" ++ ownerexpr ++ ")" else ownerexpr
      .ok (ownerexpr ++ "->" ++ name, .Arrow)
  | .keyAccess target key fallback => do
      let (targetstr, targetprec) ← getPHPExpr target
      let targetstr := if PHPPrecedence.Arrow.value < targetprec.value
        then "(" ++ targetstr ++ ")" else targetstr
      let indexexpr ← match key with
        | .inr e => do .ok (← getPHPExpr e).1
        | .inl s => .ok (phpstr s)
      let phpexpr := targetstr ++ "[" ++ indexexpr ++ "]"
      match fallback with
      | some fb => do
          let fbstr ← getPHPExpr fb
          .ok (phpexpr ++ " ?? " ++ wrapmultPHP fbstr, .MultDiv)
      | none => .ok (phpexpr, .Arrow)
  | .andOr _ [] => .ok (String.intercalate "" [], .MultDiv)
  | .andOr _ [a] => do .ok ("(bool)" ++ wrapdotPHP (← getPHPExpr a), .MultDiv)
  | .andOr op (a :: b :: rest) => do
      let args ← getPHPExprList (a :: b :: rest)
      let args := args.map wrapdotPHP
      let join := match op with | .OR => " || " | .AND => " && "
      .ok (String.intercalate join args, .MultDiv)
  | .not arg =>
      match h : getNegated arg with
      | some neg =>
          have : sizeOf neg = sizeOf arg := getNegated_sizeOf arg neg h
          getPHPExpr neg
      | none => do
          let p ← getPHPExpr arg
          .ok ("!" ++ wrapmultPHP p, .MultDiv)
  | .isNull target negated => do
      let p ← getPHPExpr target
      let comp := if negated then " !== null" else " === null"
      .ok (wrapdotPHP p ++ comp, .MultDiv)
  | .compare op arg1 arg2 negated => do
      let comp := getComp op negated
      let a1 := wrapmultPHP (← getPHPExpr arg1)
      let a2 := wrapmultPHP (← getPHPExpr arg2)
      .ok (a1 ++ " " ++ comp ++ " " ++ a2, .MultDiv)
termination_by e => sizeOf e
decreasing_by all_goals (simp_wf <;> omega)

def getPHPExprList : List PanExpr → Except PdxError (List (String × PHPPrecedence))
  | [] => .ok []
  | e :: es => do
      let r ← getPHPExpr e
      let rs ← getPHPExprList es
      .ok (r :: rs)
termination_by l => sizeOf l
decreasing_by all_goals (simp_wf <;> omega)

end

/-- C2: a key-access expression with a fallback renders as the Python method
call `<target>.get(<key>, <fallback>)`, the TypeScript ternary
`<target>[<key>] === undefined ? <fallback> : <target>[<key>]` and the PHP
null-coalescing `<target>[<key>] ?? <fallback>` — three syntactically
different get-with-default forms — whenever the target, key and fallback
render successfully in the respective language. -/
theorem keyAccess_fallback_renderings (target fb : PanExpr) (s : String)
    (tpy fpy : String × PyPrecedence) (tts fts : String × TSPrecedence)
    (tphp fphp : String × PHPPrecedence)
    (hpy : getPyExpr target = .ok tpy) (hfpy : getPyExpr fb = .ok fpy)
    (hts : getTSExpr target = .ok tts) (hfts : getTSExpr fb = .ok fts)
    (hphp : getPHPExpr target = .ok tphp) (hfphp : getPHPExpr fb = .ok fphp) :
    getPyExpr (.keyAccess target (.inl s) (some fb)) =
      .ok ((if PyPrecedence.Dot.value < tpy.2.value
              then "(" ++ tpy.1 ++ ")" else tpy.1) ++
        ".get(" ++ pyReprStr s ++ ", " ++ fpy.1 ++ ")", .Dot) ∧
    getTSExpr (.keyAccess target (.inl s) (some fb)) =
      .ok (((if TSPrecedence.Dot.value < tts.2.value
              then "(" ++ tts.1 ++ ")" else tts.1) ++
          "[" ++ pyReprStr s ++ "]") ++
        " === undefined ? " ++ fts.1 ++ " : " ++
        ((if TSPrecedence.Dot.value < tts.2.value
              then "(" ++ tts.1 ++ ")" else tts.1) ++
          "[" ++ pyReprStr s ++ "]"), .Dot) ∧
    getPHPExpr (.keyAccess target (.inl s) (some fb)) =
      .ok (((if PHPPrecedence.Arrow.value < tphp.2.value
              then "(" ++ tphp.1 ++ ")" else tphp.1) ++
          "[" ++ phpstr s ++ "]") ++
        " ?? " ++ wrapmultPHP fphp, .MultDiv) := by
  obtain ⟨tpys, tpyp⟩ := tpy
  obtain ⟨ttss, ttsp⟩ := tts
  obtain ⟨tphps, tphpp⟩ := tphp
  refine ⟨?_, ?_, ?_⟩ <;>
    simp [getPyExpr, getTSExpr, getPHPExpr, hpy, hfpy, hts, hfts, hphp, hfphp]

/-- Witness for C2: `d["k"]` with fallback `0` renders as `d.get('k', 0)`,
`d['k'] === undefined ? 0 : d['k']` and `$d['k'] ?? 0`. -/
theorem keyAccess_fallback_renderings_witness :
    getPyExpr (.keyAccess (.var "d" none) (.inl "k") (some (.lit (.int 0)))) =
      .ok ("d.get('k', 0)", .Dot) ∧
    getTSExpr (.keyAccess (.var "d" none) (.inl "k") (some (.lit (.int 0)))) =
      .ok ("d['k'] === undefined ? 0 : d['k']", .Dot) ∧
    getPHPExpr (.keyAccess (.var "d" none) (.inl "k") (some (.lit (.int 0)))) =
      .ok ("$d['k'] ?? 0", .MultDiv) := by
  have h := keyAccess_fallback_renderings (.var "d" none) (.lit (.int 0)) "k"
    ("d", .Literal) ("0", .Literal) ("d", .Literal) ("0", .Literal)
    ("$d", .Literal) ("0", .Literal)
    (by simp [getPyExpr] <;> rfl) (by simp [getPyExpr, pyReprVal] <;> rfl)
    (by simp [getTSExpr] <;> rfl) (by simp [getTSExpr] <;> rfl)
    (by simp [getPHPExpr] <;> rfl) (by simp [getPHPExpr] <;> rfl)
  obtain ⟨h1, h2, h3⟩ := h
  refine ⟨?_, ?_, ?_⟩
  · rw [h1]; rfl
  · rw [h2]; rfl
  · rw [h3]; rfl

/-- C4: negation folding.  `Not` of a `Compare` renders, in each target, as
the same `Compare` with the negation flag toggled (no `not`/`!` prefix); a
negated `Compare` joins its two rendered operands with the negated operator
(`!=` in Python for exact-equals, `!==` in TypeScript/PHP, `<`→`>=`,
`>`→`<=`); `Not` of an `IsNull` renders as the positive-form null comparison
with the negated operator (`is not None` / `!== null`); and for operand kinds
without a pre-negated form (`getNegated` = none) `Not` falls back to
prefixing `not ` (Python) or `!` (TypeScript/PHP). -/
theorem panNot_negation_folding (op : CompareOp) (a b t e : PanExpr) (n : Bool)
    (pa pb pt pe : String × PyPrecedence)
    (sa sb st se : String × TSPrecedence)
    (qa qb qt qe : String × PHPPrecedence)
    (hpa : getPyExpr a = .ok pa) (hpb : getPyExpr b = .ok pb)
    (hpt : getPyExpr t = .ok pt) (hpe : getPyExpr e = .ok pe)
    (hsa : getTSExpr a = .ok sa) (hsb : getTSExpr b = .ok sb)
    (hst : getTSExpr t = .ok st) (hse : getTSExpr e = .ok se)
    (hqa : getPHPExpr a = .ok qa) (hqb : getPHPExpr b = .ok qb)
    (hqt : getPHPExpr t = .ok qt) (hqe : getPHPExpr e = .ok qe)
    (hneg : getNegated e = none) :
    getPyExpr (.not (.compare op a b n)) = getPyExpr (.compare op a b (!n)) ∧
    getTSExpr (.not (.compare op a b n)) = getTSExpr (.compare op a b (!n)) ∧
    getPHPExpr (.not (.compare op a b n)) = getPHPExpr (.compare op a b (!n)) ∧
    getPyExpr (.not (.isNull t n)) = getPyExpr (.isNull t (!n)) ∧
    getTSExpr (.not (.isNull t n)) = getTSExpr (.isNull t (!n)) ∧
    getPHPExpr (.not (.isNull t n)) = getPHPExpr (.isNull t (!n)) ∧
    getPyExpr (.compare op a b true) =
      .ok (wrapmultPy pa ++ " " ++
        (if op = .eq then "!=" else getComp op true) ++ " " ++
        wrapmultPy pb, .MultDiv) ∧
    getTSExpr (.compare op a b true) =
      .ok (wrapmultTS sa ++ " " ++ getComp op true ++ " " ++ wrapmultTS sb,
        .MultDiv) ∧
    getPHPExpr (.compare op a b true) =
      .ok (wrapmultPHP qa ++ " " ++ getComp op true ++ " " ++ wrapmultPHP qb,
        .MultDiv) ∧
    (getComp .eq true = "!==" ∧ getComp .lt true = ">=" ∧
      getComp .gt true = "<=") ∧
    getPyExpr (.isNull t true) = .ok (wrapdotPy pt ++ " is not None", .AddSub) ∧
    getTSExpr (.isNull t true) = .ok (wrapdotTS st ++ " !== null", .AddSub) ∧
    getPHPExpr (.isNull t true) =
      .ok (wrapdotPHP qt ++ " !== null", .MultDiv) ∧
    getPyExpr (.not e) = .ok ("not " ++ wrapmultPy pe, .MultDiv) ∧
    getTSExpr (.not e) = .ok ("!" ++ wrapmultTS se, .MultDiv) ∧
    getPHPExpr (.not e) = .ok ("!" ++ wrapmultPHP qe, .MultDiv) := by
  have hnotPy : getPyExpr (.not e) = (do
      let p ← getPyExpr e
      Except.ok ("not " ++ wrapmultPy p, PyPrecedence.MultDiv)) := by
    cases e <;> simp_all [getPyExpr, getNegated]
  have hnotTS : getTSExpr (.not e) = (do
      let p ← getTSExpr e
      Except.ok ("!" ++ wrapmultTS p, TSPrecedence.MultDiv)) := by
    cases e <;> simp_all [getTSExpr, getNegated]
  have hnotPHP : getPHPExpr (.not e) = (do
      let p ← getPHPExpr e
      Except.ok ("!" ++ wrapmultPHP p, PHPPrecedence.MultDiv)) := by
    cases e <;> simp_all [getPHPExpr, getNegated]
  refine ⟨?_, ?_, ?_, ?_, ?_, ?_, ?_, ?_, ?_, ⟨rfl, rfl, rfl⟩, ?_, ?_, ?_,
      ?_, ?_, ?_⟩
  · simp [getPyExpr, getNegated]
  · simp [getTSExpr, getNegated]
  · simp [getPHPExpr, getNegated]
  · simp [getPyExpr, getNegated]
  · simp [getTSExpr, getNegated]
  · simp [getPHPExpr, getNegated]
  · simp [getPyExpr, hpa, hpb]
  · simp [getTSExpr, hsa, hsb]
  · simp [getPHPExpr, hqa, hqb]
  · simp [getPyExpr, hpt]
  · simp [getTSExpr, hst]
  · simp [getPHPExpr, hqt]
  · rw [hnotPy]; simp [hpe]
  · rw [hnotTS]; simp [hse]
  · rw [hnotPHP]; simp [hqe]

/-- Witness for C4: negation folding at the concrete operands `x`, `1`, `y`
and the non-negatable operand `z`. -/
theorem panNot_negation_folding_witness :
    getPyExpr (.not (.compare .eq (.var "x" none) (.lit (.int 1)) false)) =
      getPyExpr (.compare .eq (.var "x" none) (.lit (.int 1)) true) ∧
    getPyExpr (.not (.var "z" none)) = .ok ("not z", .MultDiv) := by
  have h := panNot_negation_folding .eq (.var "x" none) (.lit (.int 1))
    (.var "y" none) (.var "z" none) false
    ("x", .Literal) ("1", .Literal) ("y", .Literal) ("z", .Literal)
    ("x", .Literal) ("1", .Literal) ("y", .Literal) ("z", .Literal)
    ("$x", .Literal) ("1", .Literal) ("$y", .Literal) ("$z", .Literal)
    (by simp [getPyExpr] <;> rfl) (by simp [getPyExpr, pyReprVal] <;> rfl)
    (by simp [getPyExpr] <;> rfl) (by simp [getPyExpr] <;> rfl)
    (by simp [getTSExpr] <;> rfl) (by simp [getTSExpr] <;> rfl)
    (by simp [getTSExpr] <;> rfl) (by simp [getTSExpr] <;> rfl)
    (by simp [getPHPExpr] <;> rfl) (by simp [getPHPExpr] <;> rfl)
    (by simp [getPHPExpr] <;> rfl) (by simp [getPHPExpr] <;> rfl)
    rfl
  obtain ⟨h1, -, -, -, -, -, -, -, -, -, -, -, -, h14, -, -⟩ := h
  exact ⟨h1, by rw [h14]; rfl⟩

/-- C8 (code bug): for two or more operands, `PanAndOr.getTSExpr` renders each
operand with `getPyExpr` instead of `getTSExpr` (expressions.py line 822), so
the TypeScript output embeds Python expression syntax: the operands `true` and
`false`, whose own TypeScript renderings are `true`/`false`, appear as the
Python literals `True`/`False` inside the `!!(...)` coercion. -/
theorem panAndOr_ts_embeds_python_renderings :
    getTSExpr (.andOr .OR [.lit (.bool true), .lit (.bool false)]) =
      .ok ("!!((True) || (False))", .Literal) ∧
    getTSExpr (.lit (.bool true)) = .ok ("true", .Literal) ∧
    getTSExpr (.lit (.bool false)) = .ok ("false", .Literal) ∧
    getPyExpr (.lit (.bool true)) = .ok ("True", .Literal) ∧
    getPyExpr (.lit (.bool false)) = .ok ("False", .Literal) := by
  refine ⟨?_, ?_, ?_, ?_, ?_⟩ <;>
    simp [getTSExpr, getPyExpr, getPyExprList, pyReprVal] <;> rfl

/-! ### The statement model (generate/statements.py) and the file writer
(output/__init__.py).

The Python `FileWriter` appends `indentstr * (indent + baseindent) + line +
"\n"` to a shared text handle; the embedding models the handle as append-only
by returning the list of emitted lines (one string per line, a blank line
being `""`).  When a write raises, the source leaves the partially written
lines in the handle; the `Except` model simply discards them, which is
faithful for every property stated here (all concern successful renders). -/

/-- The `s * n` for strings (Python repetition). -/
def strRep (s : String) : Nat → String
  | 0 => ""
  | n + 1 => s ++ strRep s n

/-- The indentation state of a `FileWriter` (output/__init__.py lines 29-57):
the indent string and the base indent level. -/
structure FW where
  indentstr : String
  baseindent : Nat

/-- The `FileWriter.line0`: the line prefixed with `indentstr * baseindent`. -/
def FW.l0 (w : FW) (line : String) : String :=
  strRep w.indentstr w.baseindent ++ line

/-- The `FileWriter.line1`: the line prefixed with `indentstr * (1 + baseindent)`. -/
def FW.l1 (w : FW) (line : String) : String :=
  strRep w.indentstr (1 + w.baseindent) ++ line

/-- The `FileWriter.with_more_indent`. -/
def FW.more (w : FW) : FW := { w with baseindent := w.baseindent + 1 }

mutual

/-- The `Statement` hierarchy of generate/statements.py, restricted to the
node kinds the claims need.  `hardCoded` models `HardCodedStatement`: each
per-target field is `none` when the implementation was not given (the
`...` default), `some none` for an explicit `None` (write nothing) and
`some (some code)` for a code line.  `assign` is `AssignmentStatement`;
`tryCatch` is `TryCatchBlock` with its `CatchBlock2` arms and optional
finally block. -/
inductive Stmt where
  | blankLine
  | comment (text : String)
  | exprStmt (e : PanExpr)
  | hardCoded (python typescript php : Option (Option String))
  | assign (target : PanExpr) (expr : Option PanExpr)
      (declare declaretype : Bool)
  | tryCatch (body : List Stmt) (arms : List CatchArm)
      (finblock : Option (List Stmt))

/-- A `CatchBlock2` (generate/statements.py lines 574-622): optional bound
variable (only its name takes part in rendering), the per-target exception
class names, and the arm body. -/
inductive CatchArm where
  | mk (var : Option String) (pyclass tsclass phpclass : Option String)
      (body : List Stmt)

end

def CatchArm.var : CatchArm → Option String
  | .mk v _ _ _ _ => v

def CatchArm.pyclass : CatchArm → Option String
  | .mk _ p _ _ _ => p

def CatchArm.tsclass : CatchArm → Option String
  | .mk _ _ t _ _ => t

def CatchArm.phpclass : CatchArm → Option String
  | .mk _ _ _ p _ => p

def CatchArm.body : CatchArm → List Stmt
  | .mk _ _ _ _ b => b

/-- The `PanExpr.getPanType` for the modelled node kinds: literals report their
scalar type, `PanVar` raises `TypeMissing` without a type, `PanProp` carries
its type, key access projects the dict value type (asserting a dict/Any
target), and the boolean nodes report `CrossBool`. -/
def getPanType : PanExpr → Except PdxError CrossType
  | .lit (.bool _) => .ok .bool
  | .lit (.int _) => .ok .num
  | .lit (.str _) => .ok .str
  | .lit .null => .ok .null
  | .omit => .ok .omit
  | .var n none => .error (.typeMissing ("PanVar " ++ n ++ " has no type"))
  | .var _ (some t) => .ok t
  | .prop _ t _ => .ok t
  | .keyAccess target _ _ => do
      match ← getPanType target with
      | .any => .ok .any
      | .dict _ v => .ok v
      | _ => .error (.assertFailed "isinstance(targettype, CrossDict)")
  | .andOr _ _ => .ok .bool
  | .not _ => .ok .bool
  | .isNull _ _ => .ok .bool
  | .compare _ _ _ _ => .ok .bool

/-- The `CrossType.getQuotedPyType`: the Python type string, `repr`-quoted when
the needs-quoting flag is set. -/
def getQuotedPyType (t : CrossType) : String :=
  let (typeexpr, quote) := getPyType t
  if quote then pyReprStr typeexpr else typeexpr

mutual

/-- The `writepy` of each modelled statement: the emitted lines and the
statement-count return value of the Python `writepy` methods. -/
def writePyStmt : Stmt → FW → Except PdxError (List String × Nat)
  | .blankLine, _ => .ok ([""], 0)
  | .comment text, w => .ok ([w.l0 ("# " ++ text)], 0)
  | .exprStmt e, w => do .ok ([w.l0 (← getPyExpr e).1], 1)
  | .hardCoded python _ _, w =>
      match python with
      | none => .error (.implementationMissing
          "HardCodedStatement was not given a Python implementation")
      | some none => .ok ([], 0)
      | some (some s) => .ok ([w.l0 s], 1)
  | .assign target expr declare declaretype, w => do
      let left := (← getPyExpr target).1
      let left ← if declare && declaretype
        then do pure (left ++ ": " ++ getQuotedPyType (← getPanType target))
        else pure left
      match expr with
      | none => .ok ([w.l0 left], 1)
      | some e => do .ok ([w.l0 (left ++ " = " ++ (← getPyExpr e).1)], 1)
  | .tryCatch body arms finblock, w => do
      let (bodyLines, _) ← writePyStmts body w.more
      let armLines ← writePyArms arms w
      let finLines ← match finblock with
        | none => pure ([] : List String)
        | some fs => do
            let (fl, _) ← writePyStmts fs w.more
            pure (w.l0 "finally:" :: fl)
      .ok (w.l0 "try:" :: bodyLines ++ armLines ++ finLines, 1)

/-- The `Statements.writepy`: children in insertion order, counts summed. -/
def writePyStmts : List Stmt → FW → Except PdxError (List String × Nat)
  | [], _ => .ok ([], 0)
  | s :: rest, w => do
      let (la, ca) ← writePyStmt s w
      let (lb, cb) ← writePyStmts rest w
      .ok (la ++ lb, ca + cb)

/-- The `CatchBlock2.writepy`: `except <class> as <var>:` then the body, with a
`pass` injected when the body emitted no statements. -/
def writePyArm : CatchArm → FW → Except PdxError (List String × Nat)
  | .mk var pyclass _ _ body, w => do
      let intro := "except " ++ pyclass.getD "Exception" ++
        (match var with | some v => " as " ++ v | none => "") ++ ":"
      let (bodyLines, bodyCount) ← writePyStmts body w.more
      let passLines := if bodyCount = 0 then [w.l1 "pass"] else []
      .ok (w.l0 intro :: bodyLines ++ passLines, 1)

def writePyArms : List CatchArm → FW → Except PdxError (List String)
  | [], _ => .ok []
  | a :: rest, w => do
      let (la, _) ← writePyArm a w
      let lb ← writePyArms rest w
      .ok (la ++ lb)

end

mutual

/-- The `writephp` of each modelled statement. -/
def writePhpStmt : Stmt → FW → Except PdxError (List String)
  | .blankLine, _ => .ok [""]
  | .comment text, w => .ok [w.l0 ("// " ++ text)]
  | .exprStmt e, w => do .ok [w.l0 ((← getPHPExpr e).1 ++ ";")]
  | .hardCoded _ _ php, w =>
      match php with
      | none => .error (.implementationMissing
          "HardCodedStatement was not given a PHP implementation")
      | some none => .ok []
      | some (some s) => .ok [w.l0 s]
  | .assign target expr declare declaretype, w => do
      let docLines ← if declare && declaretype
        then do
          let phptypes ← getPHPTypes (← getPanType target)
          pure [w.l0 ("/** @var " ++ phptypes.2.1 ++ " */")]
        else pure ([] : List String)
      let left := (← getPHPExpr target).1
      match expr with
      | none => .error (.assertFailed "self._expr is not None")
      | some e => do
          .ok (docLines ++ [w.l0 (left ++ " = " ++ (← getPHPExpr e).1 ++ ";")])
  | .tryCatch body arms finblock, w => do
      let bodyLines ← writePhpStmts body w.more
      let armLines ← writePhpArms arms w
      let finLines ← match finblock with
        | none => pure ([] : List String)
        | some fs => do
            let fl ← writePhpStmts fs w.more
            pure (w.l0 "\x7d finally \x7b" :: fl)
      .ok (w.l0 "try \x7b" :: bodyLines ++ armLines ++ finLines ++
        [w.l0 "\x7d"])

def writePhpStmts : List Stmt → FW → Except PdxError (List String)
  | [], _ => .ok []
  | s :: rest, w => do
      let la ← writePhpStmt s w
      let lb ← writePhpStmts rest w
      .ok (la ++ lb)

/-- The `CatchBlock2.writephp`: `} catch (<class> $<var>) {` then the body. -/
def writePhpArm : CatchArm → FW → Except PdxError (List String)
  | .mk var _ _ phpclass body, w => do
      let intro := "\x7d catch (" ++ phpclass.getD "Exception" ++ " $" ++
        var.getD "_" ++ ") \x7b"
      let bodyLines ← writePhpStmts body w.more
      .ok (w.l0 intro :: bodyLines)

def writePhpArms : List CatchArm → FW → Except PdxError (List String)
  | [], _ => .ok []
  | a :: rest, w => do
      let la ← writePhpArm a w
      let lb ← writePhpArms rest w
      .ok (la ++ lb)

end

/-- The classification loop of `TryCatchBlock.writets` (lines 705-734):
collect the shared catch variable (raising `InvalidLogic` on mismatching
names), the typed arms in declaration order, and the at-most-one catch-all
arm. -/
def classifyArms : List CatchArm → Option String → List CatchArm →
    Option CatchArm →
    Except PdxError (Option String × List CatchArm × Option CatchArm)
  | [], catchvar, specific, catchall => .ok (catchvar, specific, catchall)
  | cb :: rest, catchvar, specific, catchall => do
      let catchvar ← match cb.var, catchvar with
        | none, cv => pure cv
        | some v, none => pure (some v)
        | some v, some cv =>
            if v = cv then pure (some cv)
            else Except.error (.invalidLogic
              "Every CatchBlock2 must have the same varname for generating TypeScript")
      match cb.tsclass with
      | some _ => classifyArms rest catchvar (specific ++ [cb]) catchall
      | none =>
          match catchall with
          | some _ => .error (.invalidLogic
              "Cannot have multiple CatchBlock2 with no TypeScript exception type specified")
          | none => classifyArms rest catchvar specific (some cb)

mutual

/-- The `writets` of each modelled statement; `tryCatch` implements
`TryCatchBlock.writets` (lines 698-769). -/
def writeTsStmt : Stmt → FW → Except PdxError (List String)
  | .blankLine, _ => .ok [""]
  | .comment text, w => .ok [w.l0 ("// " ++ text)]
  | .exprStmt e, w => do .ok [w.l0 ((← getTSExpr e).1 ++ ";")]
  | .hardCoded _ typescript _, w =>
      match typescript with
      | none => .error (.implementationMissing
          "HardCodedStatement was not given a TypeScript implementation")
      | some none => .ok []
      | some (some s) => .ok [w.l0 s]
  | .assign target expr declare declaretype, w => do
      let left := (← getTSExpr target).1
      let left ← if declare
        then do
          let left := "let " ++ left
          if declaretype
            then do pure (left ++ ": " ++ (getTSType (← getPanType target)).1)
            else pure left
        else pure left
      match expr with
      | none => .ok [w.l0 (left ++ ";")]
      | some e => do .ok [w.l0 (left ++ " = " ++ (← getTSExpr e).1 ++ ";")]
  | .tryCatch body arms finblock, w => do
      let bodyLines ← writeTsStmts body w.more
      if arms.isEmpty then
        .error (.assertFailed "TryCatchBlock must have at least one Catch block")
      else do
          let (catchvar, specific, _catchall) ← classifyArms arms none [] none
          match catchvar, specific with
          | none, _ :: _ => .error (.invalidLogic
              "at least one CatchBlock2 must have a varname for generating typescript")
          | _, _ => do
              let cvStr := catchvar.getD "None"
              let catchLines ←
                if arms.any fun cb => cb.tsclass.isSome then do
                  let chain ← writeTsChain arms true cvStr w
                  let elseLines ← writeTsElse arms w
                  let rethrow :=
                    if arms.any fun cb => cb.tsclass.isNone then []
                    else [w.l1 ("throw " ++ cvStr ++ ";")]
                  pure (chain ++ elseLines ++ [w.l1 "\x7d"] ++ rethrow)
                else writeTsSolo arms w
              let finLines ← writeTsFinally finblock w
              .ok (w.l0 "try \x7b" :: bodyLines ++
                [w.l0 ("\x7d catch (" ++ cvStr ++ ") \x7b")] ++
                catchLines ++ finLines ++ [w.l0 "\x7d"])
termination_by s _ => sizeOf s
decreasing_by all_goals (simp_wf <;> omega)

/-- The `FinallyBlock.writets` wrapped in the optional-finally handling of
`TryCatchBlock.writets`: nothing when absent, `} finally {` plus the block
body otherwise. -/
def writeTsFinally : Option (List Stmt) → FW → Except PdxError (List String)
  | none, _ => .ok []
  | some fs, w => do
      let fl ← writeTsStmts fs w.more
      .ok (w.l0 "\x7d finally \x7b" :: fl)
termination_by fb _ => sizeOf fb
decreasing_by all_goals (simp_wf <;> omega)

def writeTsStmts : List Stmt → FW → Except PdxError (List String)
  | [], _ => .ok []
  | s :: rest, w => do
      let la ← writeTsStmt s w
      let lb ← writeTsStmts rest w
      .ok (la ++ lb)
termination_by l _ => sizeOf l
decreasing_by all_goals (simp_wf <;> omega)

/-- The `if`/`} else if` chain over the typed arms, in declaration order
(arms without a TypeScript class are skipped here; they are rendered by
`writeTsElse`). -/
def writeTsChain : List CatchArm → Bool → String → FW →
    Except PdxError (List String)
  | [], _, _, _ => .ok []
  | CatchArm.mk v pyc none phpc fb :: rest, first, cvStr, w =>
      writeTsChain rest first cvStr w
  | CatchArm.mk v pyc (some tscls) phpc armbody :: rest, first, cvStr, w => do
      let bodyLines ← writeTsStmts armbody w.more.more
      let restLines ← writeTsChain rest false cvStr w
      .ok (w.l1 ((if first then "if" else "\x7d else if") ++ " (" ++
        cvStr ++ " instanceof " ++ tscls ++ ") \x7b") ::
        bodyLines ++ restLines)
termination_by arms _ _ _ => sizeOf arms
decreasing_by all_goals (simp_wf <;> omega)

/-- The final `} else {` branch rendering the catch-all arm's body, when a
catch-all arm exists. -/
def writeTsElse : List CatchArm → FW → Except PdxError (List String)
  | [], _ => .ok []
  | CatchArm.mk v pyc (some t) phpc armbody :: rest, w => writeTsElse rest w
  | CatchArm.mk v pyc none phpc armbody :: rest, w => do
      let bodyLines ← writeTsStmts armbody w.more.more
      .ok (w.l1 "\x7d else \x7b" :: bodyLines)
termination_by arms _ => sizeOf arms
decreasing_by all_goals (simp_wf <;> omega)

/-- The no-typed-arms path: the catch-all arm's body is written directly
inside the catch block (`assert catchall is not None`). -/
def writeTsSolo : List CatchArm → FW → Except PdxError (List String)
  | [], _ => .error (.assertFailed "catchall is not None")
  | CatchArm.mk v pyc tsc phpc armbody :: _, w => writeTsStmts armbody w.more
termination_by arms _ => sizeOf arms
decreasing_by all_goals (simp_wf <;> omega)

end

/-- All per-arm body renderings (at the chain's double indent), in arm
order. -/
def tsArmBodies (arms : List CatchArm) (w : FW) :
    Except PdxError (List (List String)) :=
  match arms with
  | [] => .ok []
  | cb :: rest => do
      let bl ← writeTsStmts cb.body w.more.more
      let bls ← tsArmBodies rest w
      .ok (bl :: bls)

theorem classifyArms_all_typed (v : String) (arms : List CatchArm)
    (h : ∀ cb ∈ arms, cb.var = some v ∧ cb.tsclass.isSome) :
    ∀ (cv : Option String) (acc : List CatchArm) (ca : Option CatchArm),
      (cv = none ∨ cv = some v) →
      classifyArms arms cv acc ca =
        .ok ((if arms.isEmpty then cv else some v), acc ++ arms, ca) := by
  induction arms with
  | nil => intro cv acc ca _; simp [classifyArms]
  | cons cb rest ih =>
      intro cv acc ca hcv
      obtain ⟨hvar, hts⟩ := h cb (List.mem_cons_self cb rest)
      obtain ⟨tscls, hts⟩ := Option.isSome_iff_exists.1 hts
      have hrest : ∀ x ∈ rest, x.var = some v ∧ x.tsclass.isSome :=
        fun x hx => h x (List.mem_cons_of_mem cb hx)
      have hcv' : (cv.getD v) = v := by rcases hcv with rfl | rfl <;> rfl
      simp only [classifyArms, hvar, hts]
      rcases hcv with rfl | rfl <;>
        simp [ih hrest (some v) (acc ++ [cb]) ca (Or.inr rfl),
          List.append_assoc] <;>
        cases rest <;> simp

theorem classifyArms_with_catchall (v : String) (specific : List CatchArm)
    (ca : CatchArm)
    (h : ∀ cb ∈ specific, cb.var = some v ∧ cb.tsclass.isSome)
    (hcavar : ca.var = some v) (hcats : ca.tsclass = none) :
    ∀ (cv : Option String) (acc : List CatchArm),
      (cv = none ∨ cv = some v) →
      classifyArms (specific ++ [ca]) cv acc none =
        .ok (some v, acc ++ specific, some ca) := by
  induction specific with
  | nil =>
      intro cv acc hcv
      simp only [List.nil_append, classifyArms, hcavar, hcats]
      rcases hcv with rfl | rfl <;> simp [classifyArms]
  | cons cb rest ih =>
      intro cv acc hcv
      obtain ⟨hvar, hts⟩ := h cb (List.mem_cons_self cb rest)
      obtain ⟨tscls, hts⟩ := Option.isSome_iff_exists.1 hts
      have hrest : ∀ x ∈ rest, x.var = some v ∧ x.tsclass.isSome :=
        fun x hx => h x (List.mem_cons_of_mem cb hx)
      simp only [List.cons_append, classifyArms, hvar, hts]
      rcases hcv with rfl | rfl <;>
        simp [ih hrest (some v) (acc ++ [cb]) (Or.inr rfl), List.append_assoc]

theorem writeTsElse_all_typed (arms : List CatchArm) (w : FW)
    (h : ∀ cb ∈ arms, cb.tsclass.isSome) :
    writeTsElse arms w = .ok [] := by
  induction arms with
  | nil => simp [writeTsElse]
  | cons cb rest ih =>
      obtain ⟨var, pyc, tsc, phpc, armbody⟩ := cb
      have hts := h _ (List.mem_cons_self _ rest)
      obtain ⟨tscls, hts⟩ := Option.isSome_iff_exists.1 hts
      cases hts
      simp only [writeTsElse]
      exact ih fun x hx => h x (List.mem_cons_of_mem _ hx)

theorem writeTsElse_skips_typed (specific : List CatchArm) (ca : CatchArm)
    (w : FW) (caLines : List String)
    (h : ∀ cb ∈ specific, cb.tsclass.isSome) (hcats : ca.tsclass = none)
    (hb : writeTsStmts ca.body w.more.more = .ok caLines) :
    writeTsElse (specific ++ [ca]) w =
      .ok (w.l1 "\x7d else \x7b" :: caLines) := by
  induction specific with
  | nil =>
      obtain ⟨var, pyc, tsc, phpc, armbody⟩ := ca
      cases hcats
      simp only [CatchArm.body] at hb
      simp [writeTsElse, hb]
  | cons cb rest ih =>
      obtain ⟨var, pyc, tsc, phpc, armbody⟩ := cb
      have hts := h _ (List.mem_cons_self _ rest)
      obtain ⟨tscls, hts⟩ := Option.isSome_iff_exists.1 hts
      cases hts
      simp only [List.cons_append, writeTsElse]
      exact ih fun x hx => h x (List.mem_cons_of_mem _ hx)

theorem writeTsChain_append_catchall (l : List CatchArm) (ca : CatchArm)
    (first : Bool) (v : String) (w : FW) (hcats : ca.tsclass = none) :
    writeTsChain (l ++ [ca]) first v w = writeTsChain l first v w := by
  induction l generalizing first with
  | nil =>
      obtain ⟨var, pyc, tsc, phpc, armbody⟩ := ca
      cases hcats
      simp [writeTsChain]
  | cons cb rest ih =>
      obtain ⟨var, pyc, tsc, phpc, armbody⟩ := cb
      cases tsc with
      | none => simpa [writeTsChain] using ih first
      | some tscls => simp [writeTsChain, ih false]

theorem writeTsChain_false_struct (v : String) (w : FW) :
    ∀ (arms : List CatchArm) (bls : List (List String)),
      (∀ cb ∈ arms, cb.tsclass.isSome) →
      tsArmBodies arms w = .ok bls →
      writeTsChain arms false v w =
        .ok (List.zipWith (fun cb bl =>
          w.l1 ("\x7d else if (" ++ v ++ " instanceof " ++
            cb.tsclass.getD "None" ++ ") \x7b") :: bl) arms bls).join := by
  intro arms
  induction arms with
  | nil =>
      intro bls _ hb
      simp only [tsArmBodies] at hb
      cases hb
      simp [writeTsChain]
  | cons cb rest ih =>
      intro bls h hb
      obtain ⟨var, pyc, tsc, phpc, armbody⟩ := cb
      have hts := h _ (List.mem_cons_self _ rest)
      obtain ⟨tscls, hts⟩ := Option.isSome_iff_exists.1 hts
      cases hts
      simp only [tsArmBodies, CatchArm.body] at hb
      cases hwb : writeTsStmts armbody w.more.more with
      | error e => rw [hwb] at hb; simp at hb
      | ok bl =>
          rw [hwb] at hb
          cases hbls : tsArmBodies rest w with
          | error e => rw [hbls] at hb; simp at hb
          | ok bls' =>
              rw [hbls] at hb
              simp at hb
              subst hb
              simp [writeTsChain, hwb,
                ih bls' (fun x hx => h x (List.mem_cons_of_mem _ hx)) hbls,
                CatchArm.tsclass]

/-- C3: TypeScript try/catch rendering.  With hypotheses that the try body
and finally block render, that every arm binds the same variable `v`, and
that the arm list is non-empty:

* when every arm declares a TypeScript exception class, the output is
  `try {`, the body, `} catch (v) {`, the `if`/`} else if` `instanceof`
  chain, its closing `}`, and then the re-throw `throw v;` — the re-throw
  immediately follows the chain;
* the chain lists the arms in declaration order: `if (v instanceof C0) {`
  for the first arm and `} else if (v instanceof Ci) {` for each later arm,
  each followed by that arm's body;
* when the arms are typed arms followed by one catch-all arm (no TypeScript
  class), the catch-all becomes the final `} else {` branch and no
  `throw v;` line is emitted. -/
theorem tryCatch_ts_rethrow_policy (body : List Stmt) (arms : List CatchArm)
    (finblock : Option (List Stmt)) (v : String) (w : FW)
    (bodyLines finLines : List String)
    (hbody : writeTsStmts body w.more = .ok bodyLines)
    (hfin : writeTsFinally finblock w = .ok finLines)
    (hvars : ∀ cb ∈ arms, cb.var = some v)
    (harms : arms ≠ []) :
    ((∀ cb ∈ arms, cb.tsclass.isSome) →
      ∀ chainLines, writeTsChain arms true v w = .ok chainLines →
      writeTsStmt (.tryCatch body arms finblock) w =
        .ok (w.l0 "try \x7b" :: bodyLines ++
          [w.l0 ("\x7d catch (" ++ v ++ ") \x7b")] ++
          chainLines ++ [w.l1 "\x7d", w.l1 ("throw " ++ v ++ ";")] ++
          finLines ++ [w.l0 "\x7d"])) ∧
    (∀ cb rest bl bls,
      arms = cb :: rest → (∀ x ∈ arms, x.tsclass.isSome) →
      writeTsStmts cb.body w.more.more = .ok bl →
      tsArmBodies rest w = .ok bls →
      writeTsChain arms true v w =
        .ok ((w.l1 ("if (" ++ v ++ " instanceof " ++
            cb.tsclass.getD "None" ++ ") \x7b") :: bl) ++
          (List.zipWith (fun cb2 bl2 =>
            w.l1 ("\x7d else if (" ++ v ++ " instanceof " ++
              cb2.tsclass.getD "None" ++ ") \x7b") :: bl2) rest bls).join)) ∧
    (∀ specific ca caLines chainLines,
      arms = specific ++ [ca] → specific ≠ [] →
      (∀ cb ∈ specific, cb.tsclass.isSome) → ca.tsclass = none →
      writeTsStmts ca.body w.more.more = .ok caLines →
      writeTsChain specific true v w = .ok chainLines →
      writeTsStmt (.tryCatch body arms finblock) w =
        .ok (w.l0 "try \x7b" :: bodyLines ++
          [w.l0 ("\x7d catch (" ++ v ++ ") \x7b")] ++
          chainLines ++ [w.l1 "\x7d else \x7b"] ++ caLines ++
          [w.l1 "\x7d"] ++ finLines ++ [w.l0 "\x7d"])) := by
  refine ⟨?_, ?_, ?_⟩
  · intro htyped chainLines hchain
    have hclass := classifyArms_all_typed v arms
      (fun cb hcb => ⟨hvars cb hcb, htyped cb hcb⟩) none [] none (Or.inl rfl)
    have hne : arms.isEmpty = false := by
      cases arms with
      | nil => exact absurd rfl harms
      | cons _ _ => rfl
    have hany : (arms.any fun cb => cb.tsclass.isSome) = true := by
      cases arms with
      | nil => exact absurd rfl harms
      | cons cb rest =>
          simp [List.any_cons, htyped cb (List.mem_cons_self cb rest)]
    have hnone : (arms.any fun cb => cb.tsclass.isNone) = false := by
      simp only [List.any_eq_false]
      intro cb hcb
      have := htyped cb hcb
      simp [Option.isNone_iff_eq_none]
      exact Option.isSome_iff_exists.1 this |>.elim fun x hx => by simp [hx]
    simp only [writeTsStmt, hbody, Except_bind_ok, hne, Bool.false_eq_true,
      if_false, hclass, hne]
    simp [hany, hnone, hchain, writeTsElse_all_typed arms w htyped, hfin,
      List.append_assoc]
  · intro cb rest bl bls harmseq htyped hbl hbls
    subst harmseq
    obtain ⟨var, pyc, tsc, phpc, armbody⟩ := cb
    have hts := htyped _ (List.mem_cons_self _ rest)
    obtain ⟨tscls, hts⟩ := Option.isSome_iff_exists.1 hts
    cases hts
    simp only [CatchArm.body] at hbl
    simp [writeTsChain, hbl,
      writeTsChain_false_struct v w rest bls
        (fun x hx => htyped x (List.mem_cons_of_mem _ hx)) hbls,
      CatchArm.tsclass]
  · intro specific ca caLines chainLines harmseq hspecne htyped hcats hca
      hchain
    subst harmseq
    have hcavar : ca.var = some v := hvars ca (by simp)
    have hclass := classifyArms_with_catchall v specific ca
      (fun cb hcb => ⟨hvars cb (by simp [hcb]), htyped cb hcb⟩)
      hcavar hcats none [] (Or.inl rfl)
    have hne : (specific ++ [ca]).isEmpty = false := by
      cases specific <;> rfl
    have hany : ((specific ++ [ca]).any fun cb => cb.tsclass.isSome) = true := by
      cases specific with
      | nil => exact absurd rfl hspecne
      | cons x xs =>
          simp [List.any_cons, htyped x (List.mem_cons_self x xs)]
    have hnone : ((specific ++ [ca]).any fun cb => cb.tsclass.isNone) = true := by
      simp only [List.any_eq_true]
      exact ⟨ca, by simp, by simp [hcats]⟩
    have hchain2 : writeTsChain (specific ++ [ca]) true v w = .ok chainLines := by
      rw [writeTsChain_append_catchall specific ca true v w hcats]
      exact hchain
    simp only [writeTsStmt, hbody, Except_bind_ok, hne, Bool.false_eq_true,
      if_false, hclass]
    simp [hany, hnone, hchain2, hfin,
      writeTsElse_skips_typed specific ca w caLines htyped hcats hca,
      List.append_assoc]

/-- Witness for C3: two typed arms bound to `e` with no catch-all render as
an `instanceof` chain followed by `throw e;`. -/
theorem tryCatch_ts_rethrow_policy_witness :
    writeTsStmt (.tryCatch []
      [.mk (some "e") none (some "ExcA") none [],
       .mk (some "e") none (some "ExcB") none []] none) ⟨"  ", 0⟩ =
      .ok ["try \x7b", "\x7d catch (e) \x7b",
        "  if (e instanceof ExcA) \x7b",
        "  \x7d else if (e instanceof ExcB) \x7b",
        "  \x7d", "  throw e;", "\x7d"] := by
  have h := tryCatch_ts_rethrow_policy []
    [.mk (some "e") none (some "ExcA") none [],
     .mk (some "e") none (some "ExcB") none []] none "e" ⟨"  ", 0⟩ [] []
    (by simp [writeTsStmts]) (by simp [writeTsFinally])
    (by intro cb hcb; simp at hcb; rcases hcb with rfl | rfl <;> rfl)
    (by simp)
  have hchain := h.1
    (by intro cb hcb; simp at hcb; rcases hcb with rfl | rfl <;> rfl)
    [FW.l1 ⟨"  ", 0⟩ "if (e instanceof ExcA) \x7b",
     FW.l1 ⟨"  ", 0⟩ "\x7d else if (e instanceof ExcB) \x7b"]
    (by simp [writeTsChain, writeTsStmts])
  rw [hchain]
  simp [FW.l0, FW.l1, strRep]

/-! ### Class constructor synthesis and interfaces (generate/statements.py) -/

/-- The target-language selector of `ClassSpec._getInitSpec`. -/
inductive Lang where
  | python
  | typescript
  | php
deriving DecidableEq, Repr

/-- The parts of a `FunctionSpec` that constructor synthesis populates: the
constructor name, the positional args `(name, type, default)` and the body
statements. -/
structure FunctionSpec where
  name : String
  pargs : List (String × CrossType × Option PanExpr)
  statements : List Stmt

/-- The `isinstance(e, PanLiteral)`. -/
def isPanLiteral : PanExpr → Bool
  | .lit _ => true
  | _ => false

/-- The `ClassSpec` fields that `_getInitSpec` reads: the per-target parent
classes, the initializer args `(name, type, default)` in declaration order
and the non-initarg defaulted properties `(name, default, type)` in
declaration order. -/
structure ClassSpec where
  name : String
  pybases : List String := []
  pybases_args_kwargs : Bool := false
  phpbase : Option String := none
  tsbase : Option String := none
  initargs : List (String × CrossType × Option PanExpr) := []
  initdefaults : List (String × PanExpr × CrossType) := []

/-- The language-filtered `initdefaults` of `_getInitSpec` (lines 1604-1607):
TypeScript and PHP drop `PanLiteral` defaults because those are assigned in
the class body. -/
def initdefaultsFor (cls : ClassSpec) (lang : Lang) :
    List (String × PanExpr × CrossType) :=
  match lang with
  | .typescript | .php => cls.initdefaults.filter fun d => !(isPanLiteral d.2.1)
  | .python => cls.initdefaults

/-- The `HardCodedStatement` carrying the parent-constructor call
(lines 1628-1642): per-target code when a parent is declared, `None`
(write nothing) otherwise. -/
def parentCallStmt (cls : ClassSpec) : Stmt :=
  Stmt.hardCoded
    (some (if cls.pybases_args_kwargs then some "super().__init__(*args, **kwargs)"
      else if cls.pybases.isEmpty then none else some "super().__init__()"))
    (some (match cls.tsbase with | some _ => some "super();" | none => none))
    (some (match cls.phpbase with | some _ => some "parent::__construct();" | none => none))

/-- The `ClassSpec._getInitSpec` (lines 1601-1648): `none` when there is nothing
to do; otherwise a constructor whose body is the initializer-arg assignments
in declaration order, then the parent-constructor call statement, then the
defaulted-property assignments. -/
def getInitSpec (cls : ClassSpec) (lang : Lang) : Option FunctionSpec :=
  let initdefaults := initdefaultsFor cls lang
  if cls.initargs.isEmpty && initdefaults.isEmpty then none
  else some
    { name := "__init__"
      pargs := cls.initargs ++
        (if cls.pybases_args_kwargs && lang = Lang.python
          then [("*args", CrossType.any, none), ("**kwargs", CrossType.any, none)]
          else [])
      statements :=
        (cls.initargs.map fun a =>
          Stmt.assign (.prop a.1 a.2.1 none) (some (.var a.1 none)) false true)
        ++ [parentCallStmt cls]
        ++ (initdefaults.map fun d =>
          Stmt.assign (.prop d.1 d.2.2 none) (some d.2.1) false true) }

theorem writePyStmts_append (xs ys : List Stmt) (w : FW) :
    writePyStmts (xs ++ ys) w = (do
      let (lx, cx) ← writePyStmts xs w
      let (ly, cy) ← writePyStmts ys w
      Except.ok (lx ++ ly, cx + cy)) := by
  induction xs with
  | nil =>
      simp only [List.nil_append, writePyStmts, Except_bind_ok]
      cases writePyStmts ys w <;> simp
  | cons s rest ih =>
      simp only [List.cons_append, writePyStmts]
      cases writePyStmt s w with
      | error e => simp
      | ok p =>
          simp only [Except_bind_ok, List.append_eq]
          rw [ih]
          cases writePyStmts rest w with
          | error e => simp
          | ok q =>
              simp only [Except_bind_ok]
              cases writePyStmts ys w with
              | error e => simp
              | ok r => simp [List.append_assoc, Nat.add_assoc]

theorem writePyStmts_initargAssigns (w : FW) :
    ∀ (args : List (String × CrossType × Option PanExpr)),
      writePyStmts (args.map fun a =>
          Stmt.assign (.prop a.1 a.2.1 none) (some (.var a.1 none)) false true)
        w =
        .ok (args.map fun a => w.l0 ("self." ++ a.1 ++ " = " ++ a.1),
          args.length) := by
  intro args
  induction args with
  | nil => simp [writePyStmts]
  | cons a rest ih =>
      simp [writePyStmts, writePyStmt, getPyExpr, ih]
      omega

/-- C6 (amended): in every synthesized constructor the parent-constructor
call statement sits after the initializer-arg assignments and before the
defaulted-property assignments; in particular for Python, when a parent class
is declared (plain form), the emitted body is the `self.<arg> = <arg>` lines,
then the single `super().__init__()` line, then the rendered default
assignments. -/
theorem classSpec_parent_call_position (cls : ClassSpec) (lang : Lang)
    (spec : FunctionSpec) (w : FW)
    (h : getInitSpec cls lang = some spec) :
    spec.statements =
      (cls.initargs.map fun a =>
        Stmt.assign (.prop a.1 a.2.1 none) (some (.var a.1 none)) false true)
      ++ [parentCallStmt cls]
      ++ ((initdefaultsFor cls lang).map fun d =>
        Stmt.assign (.prop d.1 d.2.2 none) (some d.2.1) false true) ∧
    (cls.pybases ≠ [] → cls.pybases_args_kwargs = false →
      ∀ lines n, writePyStmts spec.statements w = .ok (lines, n) →
      ∃ dlines dn,
        writePyStmts ((initdefaultsFor cls lang).map fun d =>
          Stmt.assign (.prop d.1 d.2.2 none) (some d.2.1) false true) w =
          .ok (dlines, dn) ∧
        lines =
          (cls.initargs.map fun a => w.l0 ("self." ++ a.1 ++ " = " ++ a.1))
          ++ [w.l0 "super().__init__()"] ++ dlines) := by
  have hstmts : spec.statements =
      (cls.initargs.map fun a =>
        Stmt.assign (.prop a.1 a.2.1 none) (some (.var a.1 none)) false true)
      ++ [parentCallStmt cls]
      ++ ((initdefaultsFor cls lang).map fun d =>
        Stmt.assign (.prop d.1 d.2.2 none) (some d.2.1) false true) := by
    simp only [getInitSpec] at h
    split at h
    · exact absurd h (by simp)
    · cases h; rfl
  refine ⟨hstmts, ?_⟩
  intro hpb hkw lines n hw
  have hparent : writePyStmts [parentCallStmt cls] w =
      .ok ([w.l0 "super().__init__()"], 1) := by
    have hne : cls.pybases.isEmpty = false := by
      cases hpbs : cls.pybases with
      | nil => exact absurd hpbs hpb
      | cons _ _ => rfl
    simp [writePyStmts, writePyStmt, parentCallStmt, hkw, hne]
  rw [hstmts, writePyStmts_append, writePyStmts_append,
    writePyStmts_initargAssigns, hparent] at hw
  simp only [Except_bind_ok] at hw
  cases hd : writePyStmts ((initdefaultsFor cls lang).map fun d =>
      Stmt.assign (.prop d.1 d.2.2 none) (some d.2.1) false true) w with
  | error e => rw [hd] at hw; simp at hw
  | ok q =>
      rw [hd] at hw
      simp only [Except_bind_ok, Except.ok.injEq, Prod.mk.injEq] at hw
      exact ⟨q.1, q.2, by simpa using hd, hw.1.symm⟩

/-- The class of the claim's constructor-synthesis scenario: parent class
`Animal`, initializer-arg property `count:int`, defaulted non-initarg
property `label:str="x"`. -/
def petClass : ClassSpec :=
  { name := "Pet", pybases := ["Animal"],
    initargs := [("count", CrossType.num, none)],
    initdefaults := [("label", PanExpr.lit (.str "x"), CrossType.str)] }

/-- C6 counterexample: for a class with parent `Animal`, initializer-arg
`count:int` and defaulted property `label:str="x"`, the synthesized Python
constructor body emits the initializer-arg assignment first and the parent
constructor call second — the parent call is not emitted first. -/
theorem classSpec_parent_call_not_first :
    (getInitSpec petClass .python).map
        (fun spec => writePyStmts spec.statements ⟨"    ", 0⟩) =
      some (.ok (["self.count = count", "super().__init__()",
        "self.label = 'x'"], 3)) ∧
    ["self.count = count", "super().__init__()", "self.label = 'x'"].head? ≠
      some "super().__init__()" := by
  constructor
  · simp [petClass, getInitSpec, initdefaultsFor, parentCallStmt, writePyStmts,
      writePyStmt, getPyExpr, FW.l0, strRep]
    rfl
  · simp

/-- Witness for C6: the synthesized constructor statement order at the
example class — initializer-arg assignment, then the parent-call statement,
then the defaulted-property assignment. -/
theorem classSpec_parent_call_position_witness :
    (getInitSpec petClass .python).map FunctionSpec.statements =
      some ((petClass.initargs.map fun a =>
          Stmt.assign (.prop a.1 a.2.1 none) (some (.var a.1 none)) false true)
        ++ [parentCallStmt petClass]
        ++ ((initdefaultsFor petClass .python).map fun d =>
          Stmt.assign (.prop d.1 d.2.2 none) (some d.2.1) false true)) := by
  cases hspec : getInitSpec petClass .python with
  | none => simp [petClass, getInitSpec, initdefaultsFor] at hspec
  | some spec =>
      have h := (classSpec_parent_call_position petClass .python spec
        ⟨"    ", 0⟩ hspec).1
      simp [h]

/-- The `InterfaceSpec` data (generate/statements.py lines 1861-1879): name,
TypeScript export flag and the `(name, type)` properties. -/
structure InterfaceSpec where
  name : String
  tsexport : Bool := false
  properties : List (String × CrossType) := []

/-- The `InterfaceSpec.writepy` (lines 1900-1901): always raises
`NotSupportedError`. -/
def interfaceWritePy (_spec : InterfaceSpec) (_w : FW) :
    Except PdxError (List String × Nat) :=
  .error (.notSupported "InterfaceSpec can't generate python code")

/-- The `InterfaceSpec.writets` (lines 1903-1908): the interface header, one
line per property, and the closing brace. -/
def interfaceWriteTs (spec : InterfaceSpec) (w : FW) :
    Except PdxError (List String) :=
  .ok ([w.l0 ((if spec.tsexport then "export " else "") ++ "interface " ++
      spec.name ++ " \x7b")] ++
    (spec.properties.map fun p =>
      w.l1 (p.1 ++ ": " ++ (getTSType p.2).1 ++ ";")) ++
    [w.l0 "\x7d"])

/-- The `InterfaceSpec.writephp` (lines 1910-1914): an interface header and the
closing brace, with no properties and no error. -/
def interfaceWritePhp (spec : InterfaceSpec) (_w : FW) :
    Except PdxError (List String) :=
  .ok [FW.l0 _w ("interface " ++ spec.name ++ " \x7b"), FW.l0 _w "\x7d"]

/-- C7 (amended): rendering an interface specification emits the interface
with its properties for TypeScript, raises `NotSupportedError` for Python,
and for PHP does not raise — it emits an empty `interface <name> { }`
declaration with no properties. -/
theorem interfaceSpec_target_support (spec : InterfaceSpec) (w : FW) :
    interfaceWritePy spec w =
      .error (.notSupported "InterfaceSpec can't generate python code") ∧
    interfaceWriteTs spec w =
      .ok ([w.l0 ((if spec.tsexport then "export " else "") ++ "interface " ++
          spec.name ++ " \x7b")] ++
        (spec.properties.map fun p =>
          w.l1 (p.1 ++ ": " ++ (getTSType p.2).1 ++ ";")) ++
        [w.l0 "\x7d"]) ∧
    interfaceWritePhp spec w =
      .ok [w.l0 ("interface " ++ spec.name ++ " \x7b"), w.l0 "\x7d"] :=
  ⟨rfl, rfl, rfl⟩

/-- C7 counterexample: the PHP rendering of an interface with a property
succeeds (returns lines, no not-supported error) and omits the property —
the claim that PHP raises is false. -/
theorem interfaceSpec_php_does_not_raise :
    interfaceWritePhp
      { name := "Foo", properties := [("x", CrossType.str)] } ⟨"    ", 0⟩ =
      .ok ["interface Foo \x7b", "\x7d"] := by
  simp [interfaceWritePhp, FW.l0, strRep]

/-! ### The render driver (output/__init__.py).

In this snapshot the driver is out of step with the per-target helper
modules: `Script._write_to_writer` (output/__init__.py line 234) calls
`write_top_imports(writer, self._content)` with two positional arguments,
but all three helper modules declare the function with keyword-only
parameters — `def write_top_imports(writer, *, top, script)` at
output/python.py line 15, output/typescript.py line 16 and output/php.py
line 17.  Binding the arguments therefore raises
`TypeError: write_top_imports() takes 1 positional argument but 2 were
given` before the helper body runs, on every call, for every target; the
stages after line 234 (imports, custom types, statement bodies) are
unreachable, so they are not modelled here. -/

/-- The `Statements` container object: its child statements plus the custom
per-target module lists added via `alsoImportPy`/`alsoImportTS` (the
`_importspy`/`_importsts`/`_importsphp` fields, yielded before the
children's). -/
structure StatementsObj where
  stmts : List Stmt := []
  customPy : List (String × Option String) := []
  customTs : List (String × Option (List String)) := []
  customPhp : List (String × Option String) := []

/-- The `Script` (output/__init__.py lines 60-69): the content container and the
file comments. -/
structure Script where
  content : StatementsObj := {}
  file_comments : List String := []

/-- The per-target file-comment header: Python wraps the comments in a
docstring; TypeScript and PHP emit `//` lines (PHP follows with a blank
line); nothing is written when there are no comments. -/
def fileCommentLines (lang : Lang) (comments : List String) (w : FW) :
    List String :=
  if comments.isEmpty then []
  else match lang with
    | .python => [w.l0 "\"\"\""] ++ comments.map w.l0 ++ [w.l0 "\"\"\""]
    | .typescript => comments.map fun text =>
        if text.isEmpty then w.l0 "//" else w.l0 ("// " ++ text)
    | .php => (comments.map fun text =>
        if text.isEmpty then w.l0 "//" else w.l0 ("// " ++ text)) ++ [""]

/-- The `Script._write_to_writer` (output/__init__.py lines 191-244): refuse
`pretty`; write the PHP opening tag (lines 209-210), the file-comment header
(lines 226-227) and the optional PHP namespace (lines 230-232); then reach
the call `write_top_imports(writer, self._content)` at line 234, which
passes two positional arguments to a helper declared
`def write_top_imports(writer, *, top, script)` with keyword-only
parameters in all three output modules, and so raises a `TypeError` during
argument binding — unconditionally, before any helper body runs.  The
preamble, comment and namespace lines written to the handle before the
raise are kept as the discarded bindings below: in the `Except` model an
error is propagated to the caller and the partially written buffer of
`get_source_code` is never returned. -/
def writeToWriter (s : Script) (lang : Lang) (pretty : Bool)
    (phpnamespace : Option String) (w : FW) :
    Except PdxError (List String) :=
  if pretty then
    .error (.notImplemented "Prettifying is not yet supported")
  else
    let _preamble := match lang with
      | .php => [w.l0 "<?php", ""]
      | _ => []
    let _commentLines := fileCommentLines lang s.file_comments w
    let _nsLines := match lang, phpnamespace with
      | .php, some ns => [w.l0 ("namespace " ++ ns ++ ";"), ""]
      | _, _ => []
    .error (.exception
      "TypeError: write_top_imports() takes 1 positional argument but 2 were given")

/-- The `Script.get_source_code` (output/__init__.py lines 170-189): refuse
`pretty`, render into a fresh in-memory buffer with a fresh `FileWriter`
(base indent 0), and return the buffer's contents; an exception raised by
`_write_to_writer` propagates to the caller and no text is returned. -/
def Script.get_source_code (s : Script) (lang : Lang) (indentstr : String)
    (pretty : Bool) (phpnamespace : Option String) :
    Except PdxError String := do
  if pretty then
    .error (.notImplemented "Cannot prettify in-memory")
  else do
    let lines ← writeToWriter s lang pretty phpnamespace ⟨indentstr, 0⟩
    .ok (String.join (lines.map (· ++ "\n")))

/-- C9 (code bug): in this snapshot the in-memory render never produces any
output text, so the claimed repeatable byte-identical rendering is
unobtainable.  For every script, every target language, every indent string
and every PHP namespace, `get_source_code` (with `pretty=False`, its only
non-refused mode) raises the `TypeError` caused by `_write_to_writer` line
234 passing `self._content` positionally to the keyword-only
`write_top_imports(writer, *, top, script)` helpers of output/python.py,
output/typescript.py and output/php.py.  The repository's own tests call
`get_source_code` and assert rendered text, so the frozen driver
contradicts the tests and the claim's evident intent. -/
theorem get_source_code_always_raises (s : Script) (lang : Lang)
    (indentstr : String) (phpnamespace : Option String) :
    s.get_source_code lang indentstr false phpnamespace =
      .error (.exception
        "TypeError: write_top_imports() takes 1 positional argument but 2 were given") := by
  cases lang <;> rfl

end Paradox
